import Mathlib

/-!
# wttr.in front server (`cmd/srv.go`, `cmd/log.go`)

A shallow embedding of the Go sources.

* Go maps (`http.Header`, `map[logEntry]int`) are association lists; the order
  of the list is the order in which `range` visits the map.  Theorems quantify
  over every list, hence over every iteration order.  Indexing a key that is
  absent yields the zero value, as in Go.
* `http.Header.Add`, `Set` and `Get` are the standard library methods; they
  canonicalise the key with `textproto.CanonicalMIMEHeaderKey` first.
* The response writer is the one of the `net/http` HTTP/1 server: `WriteHeader`
  panics on a status code outside 100..999 and sends a 1xx code as an
  informational block, `Write` sends no body where the status, the request
  method or the declared `Content-Length` forbid it.
* Go `int` is taken as 64 bits wide; the counters of the logger wrap.
* Effects (clock, log file, standard logger) are threaded through an explicit
  `World` value.
-/

namespace WttrIn

/-! ## `net/textproto`: canonical header keys -/

/-- Go `textproto.validHeaderFieldByte`: the token characters of RFC 7230. -/
def validHeaderFieldByte (c : Char) : Bool :=
  c.isAlphanum || "!#$%&'*+-.^_|~".toList.contains c || c == Char.ofNat 96

/-- The canonicalising loop of Go `textproto.canonicalMIMEHeaderKey`: upper
case at the start and after each dash, lower case elsewhere. -/
def canonLoop : Bool → List Char → List Char
  | _, [] => []
  | upper, c :: cs =>
    let c1 := if upper && c.isLower then c.toUpper
              else if !upper && c.isUpper then c.toLower
              else c
    c1 :: canonLoop (c1 == '-') cs

/-- Go `textproto.CanonicalMIMEHeaderKey`.  A key holding a byte that is not a
valid header field byte (a space included) is returned unchanged. -/
def CanonicalMIMEHeaderKey (s : String) : String :=
  if s.toList.all validHeaderFieldByte then String.mk (canonLoop true s.toList) else s

/-! ## `net/http.Header` -/

/-- Go `http.Header`, a `map[string][]string`. -/
abbrev Header := List (String × List String)

/-- Go `m[k]` on a map: the value stored under `k`, the zero value when absent. -/
def index {κ α : Type} [DecidableEq κ] (zero : α) : List (κ × α) → κ → α
  | [], _ => zero
  | (k1, v) :: m, k => if k1 = k then v else index zero m k

/-- Go `_, ok := m[k]`: whether the key is present. -/
def hasKey {κ α : Type} [DecidableEq κ] : List (κ × α) → κ → Bool
  | [], _ => false
  | (k1, _) :: m, k => if k1 = k then true else hasKey m k

/-- Go `m[k] = v`: replaces the value of a present key, adds an absent one. -/
def store {κ α : Type} [DecidableEq κ] : List (κ × α) → κ → α → List (κ × α)
  | [], k, v => [(k, v)]
  | (k1, v1) :: m, k, v => if k1 = k then (k1, v) :: m else (k1, v1) :: store m k v

/-- Go `h[k]` on a header: the value list under `k`, nil when absent. -/
def Header.values (h : Header) (k : String) : List String := index [] h k

/-- Go `Header.Add`: `key = CanonicalMIMEHeaderKey(key); h[key] = append(h[key], value)`. -/
def Header.Add (h : Header) (key value : String) : Header :=
  let key := CanonicalMIMEHeaderKey key
  store h key (h.values key ++ [value])

/-- Go `Header.Set`: `h[CanonicalMIMEHeaderKey(key)] = []string{value}`. -/
def Header.Set (h : Header) (key value : String) : Header :=
  store h (CanonicalMIMEHeaderKey key) [value]

/-- Go `Header.Get`: the first value under the canonical key, `""` when none. -/
def Header.Get (h : Header) (key : String) : String :=
  match h.values (CanonicalMIMEHeaderKey key) with
  | [] => ""
  | v :: _ => v

/-! ## `cmd/srv.go` -/

/-- Go `copyHeader`: for each key of `src` and each of its values, `dst.Add(k, v)`.
The result is `dst` afterwards; `src` is only read. -/
def copyHeader (dst src : Header) : Header :=
  src.foldl (fun dst kvv => kvv.2.foldl (fun dst v => Header.Add dst kvv.1 v) dst) dst

/-- The values `copyHeader` adds under `k`: those of every key of `src` whose
canonical form is `k`, in the order the keys are visited. -/
def addedUnder (src : Header) (k : String) : List String :=
  (src.filter fun kvv => CanonicalMIMEHeaderKey kvv.1 = k).flatMap Prod.snd

/-- The entry of an inbound request's `TLS` field (`*tls.ConnectionState`); only
its presence is inspected. -/
structure ConnectionState where
  Version : Nat
  deriving DecidableEq, Repr

/-- The fields of Go `http.Request` the two files read. -/
structure Request where
  Method : String
  RequestURI : String
  RemoteAddr : String
  Header : Header
  TLS : Option ConnectionState
  deriving DecidableEq, Repr

/-- An instant (`time.Time`), in nanoseconds after the zero `time.Time`. -/
abbrev Time := Int

/-- Go `time.Duration`: a signed 64-bit count of nanoseconds. -/
abbrev Duration := Int

/-- Go `time.Second`. -/
def Second : Duration := 1000000000

/-- Go `uplinkSrvAddr`. -/
def uplinkSrvAddr : String := "127.0.0.1:9002"

/-- Go `uplinkTimeout`. -/
def uplinkTimeout : Int := 30

/-- Go `prefetchInterval`. -/
def prefetchInterval : Int := 300

/-- Go `lruCacheSize`. -/
def lruCacheSize : Int := 12800

/-- Go `responseWithHeader`. -/
structure responseWithHeader where
  InProgress : Bool
  Expires : Time
  Body : List UInt8
  Header : Header
  StatusCode : Int
  deriving DecidableEq, Repr

/-- Go `strconv.ParseInt(s, 10, 64)`: an optional sign and decimal digits,
within the range of `int64`; `none` for an error. -/
def parseInt64 (s : String) : Option Int :=
  let signed : Bool × List Char :=
    match s.toList with
    | '+' :: ds => (false, ds)
    | '-' :: ds => (true, ds)
    | ds => (false, ds)
  if signed.2.isEmpty || !signed.2.all Char.isDigit then none
  else
    let un : Nat := signed.2.foldl (fun n c => 10 * n + (c.toNat - '0'.toNat)) 0
    if signed.1 then (if un > 2 ^ 63 then none else some (-(un : Int)))
    else (if un ≥ 2 ^ 63 then none else some (un : Int))

/-- Go `delete(m, k)` on a map. -/
def remove {κ α : Type} [DecidableEq κ] (m : List (κ × α)) (k : κ) : List (κ × α) :=
  m.filter fun kv => kv.1 ≠ k

/-- The unexported `Header.get` of `net/http`: the first value under the key as
given, `""` when none. -/
def Header.get (h : Header) (key : String) : String :=
  match h.values key with
  | [] => ""
  | v :: _ => v

/-- The `Content-Length` a header map declares, the way `WriteHeader` reads it:
the first value under `Content-Length` when it is a decimal number from 0 to
2^63 - 1, and -1 when there is no value or it is not such a number. -/
def declaredLength (h : Header) : Int :=
  match parseInt64 (h.get "Content-Length") with
  | some v => if v ≥ 0 then v else -1
  | none => -1

/-- Go `bodyAllowedForStatus` of `net/http`: no body with 1xx, 204 and 304. -/
def bodyAllowedForStatus (status : Int) : Bool :=
  if 100 ≤ status ∧ status ≤ 199 then false
  else if status = 204 then false
  else if status = 304 then false
  else true

/-- The state of the response writer of the `net/http` HTTP/1 server (its
`response`) that `WriteHeader` and `Write` read and change, and what they have
sent on to the client: the informational (1xx) header blocks, the status and the
header map of the response proper, and the body. -/
structure ResponseWriter where
  /-- The method of the request being answered (`w.req.Method`). -/
  reqMethod : String
  /-- The map returned by `Header()`. -/
  header : Header
  wroteHeader : Bool
  /-- The declared `Content-Length`, -1 when there is none. -/
  contentLength : Int
  /-- The number of body bytes the handler has passed to `Write`. -/
  written : Int
  sentInformational : List (Int × Header)
  sentStatus : Int
  sentHeader : Header
  sentBody : List UInt8
  deriving DecidableEq, Repr

/-- The response writer the server hands to the handler for a request: nothing
is sent yet, no `Content-Length` is declared, and the header map is as given. -/
def ResponseWriter.fresh (h : Header) (r : Request) : ResponseWriter :=
  { reqMethod := r.Method, header := h, wroteHeader := false, contentLength := -1,
    written := 0, sentInformational := [], sentStatus := 0, sentHeader := [],
    sentBody := [] }

/-- Go `response.WriteHeader` of `net/http`.  A second call has no effect.  A
code outside 100..999 panics (`checkWriteHeaderCode`), here the error.  A 1xx
code other than 101 sends an informational header block (the map without
`Content-Length` and `Transfer-Encoding`) and leaves the response proper to be
sent.  Any other code fixes the status and the header map of the response, and
reads the declared `Content-Length`, deleting an invalid one from the map. -/
def ResponseWriter.WriteHeader (w : ResponseWriter) (code : Int) :
    Except String ResponseWriter :=
  if w.wroteHeader then Except.ok w
  else if code < 100 ∨ code > 999 then
    Except.error ("invalid WriteHeader code " ++ toString code)
  else if 100 ≤ code ∧ code ≤ 199 ∧ code ≠ 101 then
    Except.ok { w with sentInformational := w.sentInformational ++
      [(code, remove (remove w.header "Content-Length") "Transfer-Encoding")] }
  else
    let w := { w with wroteHeader := true, sentStatus := code, sentHeader := w.header }
    let cl := w.header.get "Content-Length"
    if cl ≠ "" then
      match parseInt64 cl with
      | some v =>
        if v ≥ 0 then Except.ok { w with contentLength := v }
        else Except.ok { w with header := remove w.header "Content-Length" }
      | none => Except.ok { w with header := remove w.header "Content-Length" }
    else Except.ok w

/-- Go `response.Write` of `net/http`: the writer afterwards and the error
returned.  The header is sent with status 200 first when it was not sent yet.
Bytes are not sent when the status allows no body (`ErrBodyNotAllowed`), when
they exceed the declared `Content-Length` (`ErrContentLength`), or when the
request is a `HEAD` request, whose body the server discards. -/
def ResponseWriter.Write (w : ResponseWriter) (b : List UInt8) :
    ResponseWriter × Option String :=
  let w := if w.wroteHeader then w
    else match w.WriteHeader 200 with
      | Except.ok w1 => w1
      | Except.error _ => w
  if b.length = 0 then (w, none)
  else if !bodyAllowedForStatus w.sentStatus then
    (w, some "http: request method or response status code does not allow body")
  else
    let w := { w with written := w.written + b.length }
    if w.contentLength ≠ -1 ∧ w.written > w.contentLength then
      (w, some "http: wrote more than the declared Content-Length")
    else if w.reqMethod = "HEAD" then (w, none)
    else ({ w with sentBody := w.sentBody ++ b }, none)

/-- Calls and outputs the root handler makes, in the order they happen. -/
inductive Event where
  | loggerLog (r : Request)
  | logPrintln (msg : String)
  | processRequest (r : Request)
  deriving DecidableEq, Repr

/-- The environment of the logger and of the handler. -/
structure World where
  /-- The successive readings of the clock (`time.Now`). -/
  clock : Nat → Time
  /-- The number of readings taken so far. -/
  reads : Nat
  /-- The error `os.OpenFile` returns for the access log, if it fails. -/
  openErr : Option String
  /-- When `f.Write` fails: the number of characters written before, and the error. -/
  writeErr : Option (Nat × String)
  /-- The files on disk, by name. -/
  files : List (String × String)
  /-- The calls and outputs recorded so far. -/
  trace : List Event

/-- The functions the two files call and do not define. -/
structure Env where
  /-- The function `readUserIP` of the repository, defined in another file. -/
  readUserIP : Request → String
  /-- The function `processRequest` of the repository, defined in another file. -/
  processRequest : Request → responseWithHeader
  /-- Go `Time.Format(time.RFC3339)`. -/
  formatRFC3339 : Time → String

/-- Go `time.Now`: the next reading of the clock. -/
def timeNow (w : World) : Time × World :=
  (w.clock w.reads, { w with reads := w.reads + 1 })

/-- Go `Time.Sub`: the difference, saturated to the range of `Duration`. -/
def timeSub (t u : Time) : Duration :=
  max (-(2 ^ 63)) (min (2 ^ 63 - 1) (t - u))

/-- Go `time.Since(t)`, that is `time.Now().Sub(t)`. -/
def timeSince (w : World) (t : Time) : Duration × World :=
  let (now, w) := timeNow w
  (timeSub now t, w)

/-- Go `log.Println` on the standard logger. -/
def logPrintln (w : World) (msg : String) : World :=
  { w with trace := w.trace ++ [Event.logPrintln msg] }

/-- Go `os.OpenFile(name, O_APPEND|O_WRONLY|O_CREATE, 0600)`: fails with the
environment's error, otherwise the file exists afterwards. -/
def openFile (w : World) (name : String) : Option String × World :=
  match w.openErr with
  | some err => (some err, w)
  | none => (none, { w with files := store w.files name (index "" w.files name) })

/-- Go `f.Write` on a file opened for appending: appends the text, or on
failure the part of it written before the error. -/
def fileWrite (w : World) (name : String) (output : String) : Option String × World :=
  match w.writeErr with
  | some (n, err) =>
    (some err, { w with files := store w.files name (index "" w.files name ++ output.take n) })
  | none => (none, { w with files := store w.files name (index "" w.files name ++ output) })

/-! ## `cmd/log.go` -/

/-- Go `logEntry`. -/
structure logEntry where
  Proto : String
  IP : String
  URI : String
  UserAgent : String
  deriving DecidableEq, Repr

/-- Go `RequestLogger`; access to it is serialised by its mutex.  The hit counts
of `buf` are Go `int`s of 64 bits. -/
structure RequestLogger where
  buf : List (logEntry × Int)
  filename : String
  period : Duration
  lastFlush : Time
  deriving DecidableEq, Repr

/-- Go `NewRequestLogger`: an empty buffer, `lastFlush` the zero time. -/
def NewRequestLogger (filename : String) (period : Duration) : RequestLogger :=
  { buf := [], filename := filename, period := period, lastFlush := 0 }

/-- Go `logEntry.String`: `"%s %s %s %s"`. -/
def logEntry.String (e : logEntry) : String :=
  e.Proto ++ " " ++ e.IP ++ " " ++ e.URI ++ " " ++ e.UserAgent

/-- Go `fmt.Sprintf("%3d", n)`: decimal, padded on the left with spaces to width 3. -/
def sprintf3d (n : Int) : String :=
  let s := toString n
  String.mk (List.replicate (3 - s.length) ' ') ++ s

/-- The line `flush` formats for one entry: `"%s %3d %s\n"`. -/
def logLine (env : Env) (now : Time) (k : logEntry) (hitsNumber : Int) : String :=
  env.formatRFC3339 now ++ " " ++ sprintf3d hitsNumber ++ " " ++ k.String ++ "\n"

/-- The loop of `flush` that generates the log output, one `time.Now` per entry. -/
def flushOutput (env : Env) : List (logEntry × Int) → String → World → String × World
  | [], output, w => (output, w)
  | (k, hitsNumber) :: buf, output, w =>
    let (now, w) := timeNow w
    flushOutput env buf (output ++ logLine env now k hitsNumber) w

/-- Go `RequestLogger.flush`: returns the error (`none` for nil), the logger and
the world afterwards. -/
def RequestLogger.flush (env : Env) (rl : RequestLogger) (w : World) :
    Option String × RequestLogger × World :=
  let (since, w) := timeSince w rl.lastFlush
  if since ≤ rl.period then (none, rl, w)
  else
    let (output, w) := flushOutput env rl.buf "" w
    match openFile w rl.filename with
    | (some err, w) => (some err, rl, w)
    | (none, w) =>
      match fileWrite w rl.filename output with
      | (some err, w) => (some err, rl, w)
      | (none, w) =>
        let (now, w) := timeNow w
        (none, { rl with buf := [], lastFlush := now }, w)

/-- The entry `Log` builds from a request. -/
def RequestLogger.entryOf (env : Env) (r : Request) : logEntry :=
  let le : logEntry :=
    { Proto := "http", IP := env.readUserIP r, URI := r.RequestURI,
      UserAgent := r.Header.Get "User-Agent" }
  if r.TLS.isSome then { le with Proto := "https" } else le

/-- Go arithmetic on `int` (64 bits): the result wraps into -2^63 .. 2^63 - 1. -/
def wrapInt (n : Int) : Int :=
  (n + 2 ^ 63) % 2 ^ 64 - 2 ^ 63

/-- Go `RequestLogger.Log`. -/
def RequestLogger.Log (env : Env) (rl : RequestLogger) (r : Request) (w : World) :
    Option String × RequestLogger × World :=
  let le := RequestLogger.entryOf env r
  let rl := { rl with buf := store rl.buf le (wrapInt (index 0 rl.buf le + 1)) }
  let (since, w) := timeSince w rl.lastFlush
  if since > rl.period then rl.flush env w else (none, rl, w)

/-! ## `cmd/srv.go`: the root handler -/

/-- The function `main` registers for `"/"`: the logger, the writer and the
world afterwards, and the panic that ended the handler, if any.  The error
`w.Write` returns is dropped, as in the source. -/
def rootHandler (env : Env) (logger : RequestLogger) (w : ResponseWriter) (r : Request)
    (world : World) : RequestLogger × ResponseWriter × World × Option String :=
  let world := { world with trace := world.trace ++ [Event.loggerLog r] }
  let (err, logger, world) := logger.Log env r world
  let world := match err with
    | some e => logPrintln world e
    | none => world
  let world := { world with trace := world.trace ++ [Event.processRequest r] }
  let response := env.processRequest r
  let w := { w with header := copyHeader w.header response.Header }
  let w := { w with header := w.header.Set "Access-Control-Allow-Origin" "*" }
  match w.WriteHeader response.StatusCode with
  | Except.error msg => (logger, w, world, some msg)
  | Except.ok w => (logger, (w.Write response.Body).1, world, none)

/-- The four statements of the root handler that follow `processRequest`, on
their own: the writer afterwards and the panic, if any. -/
def respond (w : ResponseWriter) (response : responseWithHeader) :
    ResponseWriter × Option String :=
  let w := { w with header := copyHeader w.header response.Header }
  let w := { w with header := w.header.Set "Access-Control-Allow-Origin" "*" }
  match w.WriteHeader response.StatusCode with
  | Except.error msg => (w, some msg)
  | Except.ok w => ((w.Write response.Body).1, none)

/-! ## `cmd/srv.go`: `init` -/

/-- Go `context.Context`, as far as a dial is concerned. -/
structure Context where
  deadline : Option Time
  deriving DecidableEq, Repr

/-- Go `net.Dialer`: the fields `init` sets. -/
structure Dialer where
  Timeout : Duration
  KeepAlive : Duration
  DualStack : Bool
  deriving DecidableEq, Repr

/-- A call of `net.Dialer.DialContext`: the dialer and its three arguments. -/
structure DialCall where
  dialer : Dialer
  ctx : Context
  network : String
  address : String
  deriving DecidableEq, Repr

/-- The `dialer` of `init`. -/
def dialer : Dialer :=
  { Timeout := uplinkTimeout * Second, KeepAlive := uplinkTimeout * Second, DualStack := true }

/-- The function `init` installs as `DialContext` of the default transport:
`func(ctx, network, _ string) { return dialer.DialContext(ctx, network, uplinkSrvAddr) }`. -/
def DialContext (ctx : Context) (network _address : String) : DialCall :=
  { dialer := dialer, ctx := ctx, network := network, address := uplinkSrvAddr }

/-! ## `cmd/srv.go`: `main` -/

/-- The part of the global `Conf.Server` that `main` reads (defined in another file). -/
structure ServerConf where
  PortHTTP : Int
  PortHTTPS : Int
  TLSCertFile : String
  TLSKeyFile : String
  deriving DecidableEq, Repr

/-- The listeners, as `main` sees them: what `http.ListenAndServe` and
`http.ListenAndServeTLS` return if they ever return (`none`: the listener serves
for ever), and which goroutine sends first when both have an error to send. -/
structure Listeners where
  ListenAndServe : String → Option String
  ListenAndServeTLS : String → String → String → Option String
  httpsSendsFirst : Bool

/-- Go `serveHTTP`: the value the goroutine sends on `errs`, if any. -/
def serveHTTP (ls : Listeners) (port : Int) : Option String :=
  ls.ListenAndServe (":" ++ toString port)

/-- Go `serveHTTPS`: the value the goroutine sends on `errs`, if any. -/
def serveHTTPS (ls : Listeners) (conf : ServerConf) (port : Int) : Option String :=
  ls.ListenAndServeTLS (":" ++ toString port) conf.TLSCertFile conf.TLSKeyFile

/-- A goroutine `main` starts. -/
inductive Goroutine where
  | serveHTTP (port : Int)
  | serveHTTPS (port : Int)
  deriving DecidableEq, Repr

/-- How `main` ends. -/
inductive Exit where
  | returned
  | fatal (err : String)
  | blocked
  deriving DecidableEq, Repr

/-- What a run of `main` does after the handler is registered. -/
structure MainRun where
  started : List Goroutine
  numberOfServers : Int
  printed : List String
  readErrs : Bool
  exit : Exit
  deriving DecidableEq, Repr

/-- The values sent on `errs`, in the order they are sent. -/
def sentOnErrs (ls : Listeners) (conf : ServerConf) (started : List Goroutine) : List String :=
  let sent := started.filterMap fun g =>
    match g with
    | Goroutine.serveHTTP port => serveHTTP ls port
    | Goroutine.serveHTTPS port => serveHTTPS ls conf port
  if ls.httpsSendsFirst then sent.reverse else sent

/-- Go `log.Fatal(<-errs)`: blocks until a value is sent on `errs`, then exits
with it. -/
def fatalOnFirst (sent : List String) : Exit :=
  match sent.head? with
  | some err => Exit.fatal err
  | none => Exit.blocked

/-- Go `main`, from the first `if` on. -/
def main (conf : ServerConf) (ls : Listeners) : MainRun :=
  let started : List Goroutine := []
  let numberOfServers : Int := 0
  let (started, numberOfServers) :=
    if conf.PortHTTP ≠ 0 then (started ++ [Goroutine.serveHTTP conf.PortHTTP], numberOfServers + 1)
    else (started, numberOfServers)
  let (started, numberOfServers) :=
    if conf.PortHTTPS ≠ 0 then
      (started ++ [Goroutine.serveHTTPS conf.PortHTTPS], numberOfServers + 1)
    else (started, numberOfServers)
  if numberOfServers = 0 then
    { started := started, numberOfServers := numberOfServers,
      printed := ["no servers configured; exiting"], readErrs := false, exit := Exit.returned }
  else
    { started := started, numberOfServers := numberOfServers, printed := [], readErrs := true,
      exit := fatalOnFirst (sentOnErrs ls conf started) }

/-! ## `cmd/srv.go`: the cache created by `init` -/

/-- Modelled from the spec: the bounded store `lru.Cache` of the package
`github.com/hashicorp/golang-lru`, which `srv.go` imports and which is not among
these sources.  It has a fixed capacity `size` and keeps its entries in the
order of their last use, the most recently used first. -/
structure Cache (κ α : Type) where
  size : Nat
  items : List (κ × α)
  deriving DecidableEq, Repr

/-- Modelled from the spec: `lru.New(size)` of the missing package, an empty
store of the given fixed capacity; a capacity that is not positive is an error. -/
def lruNew (κ α : Type) (size : Int) : Except String (Cache κ α) :=
  if size ≤ 0 then Except.error "Must provide a positive size"
  else Except.ok { size := size.toNat, items := [] }

/-- Modelled from the spec: `Len` of the missing package, the total entry count. -/
def Cache.Len {κ α : Type} (c : Cache κ α) : Nat := c.items.length

/-- Modelled from the spec: `Get` of the missing package, a read.  A hit returns
the stored value and counts as a use of the entry; a miss returns nothing and
leaves the store as it is. -/
def Cache.Get {κ α : Type} [DecidableEq κ] (c : Cache κ α) (key : κ) : Option α × Cache κ α :=
  match c.items.find? (fun kv => kv.1 = key) with
  | some kv => (some kv.2, { c with items := kv :: c.items.filter (fun kv => kv.1 ≠ key) })
  | none => (none, c)

/-- Modelled from the spec: `Add` of the missing package, an insertion.  On a key
already stored it replaces the value and counts as a use; a new key becomes the
most recently used entry, and when that takes the store beyond its capacity the
least recently used entry is evicted.  Returns whether an entry was evicted. -/
def Cache.Add {κ α : Type} [DecidableEq κ] (c : Cache κ α) (key : κ) (value : α) :
    Cache κ α × Bool :=
  if hasKey c.items key then
    ({ c with items := (key, value) :: c.items.filter (fun kv => kv.1 ≠ key) }, false)
  else
    let items := (key, value) :: c.items
    if items.length > c.size then ({ c with items := items.dropLast }, true)
    else ({ c with items := items }, false)

/-- The first statement of Go `init`: `lruCache, err = lru.New(lruCacheSize)`,
with a panic (here the error) when `err` is not nil. -/
def initLruCache : Except String (Cache String responseWithHeader) :=
  lruNew String responseWithHeader lruCacheSize

/-- One access to the store: an insertion or a read. -/
inductive Access (κ α : Type) where
  | add (key : κ) (value : α)
  | get (key : κ)
  deriving DecidableEq, Repr

/-- The key an access is about. -/
def Access.key {κ α : Type} : Access κ α → κ
  | Access.add key _ => key
  | Access.get key => key

/-- The store after one access. -/
def Cache.step {κ α : Type} [DecidableEq κ] (c : Cache κ α) : Access κ α → Cache κ α
  | Access.add key value => (c.Add key value).1
  | Access.get key => (c.Get key).2

/-- The store after a sequence of accesses, the first of the list first. -/
def Cache.run {κ α : Type} [DecidableEq κ] (c : Cache κ α) (accesses : List (Access κ α)) :
    Cache κ α :=
  accesses.foldl Cache.step c

/-- Counting the accesses from 1, the number of the last one on `key` among
those of a sequence given latest first; 0 when there is none. -/
def lastUseRev {κ α : Type} [DecidableEq κ] : List (Access κ α) → κ → Nat
  | [], _ => 0
  | a :: earlier, key => if a.key = key then earlier.length + 1 else lastUseRev earlier key

/-- Counting the accesses of a sequence from 1, the number of the last access
on `key`; 0 when the key was never accessed. -/
def lastUse {κ α : Type} [DecidableEq κ] (accesses : List (Access κ α)) (key : κ) : Nat :=
  lastUseRev accesses.reverse key

/-- The entries are in the order of their last use, the latest first. -/
def ByLastUse {κ α : Type} [DecidableEq κ] (accesses : List (Access κ α))
    (items : List (κ × α)) : Prop :=
  items.Pairwise fun x y => lastUse accesses y.1 < lastUse accesses x.1

/-! ## Sample inputs -/

/-- A destination and a source with a shared multi-valued key, for C2. -/
def dstExample : Header := [("Set-Cookie", ["a=1"]), ("X-Cache", ["hit"])]

/-- The source map for C2. -/
def srcExample : Header := [("Set-Cookie", ["b=2", "c=3"]), ("Vary", ["Accept"])]

/-- An upstream response that carries its own `Access-Control-Allow-Origin`. -/
def responseExample : responseWithHeader :=
  { InProgress := false, Expires := 0, Body := [111, 107],
    Header := [("Access-Control-Allow-Origin", ["https://example.org"]),
               ("Content-Type", ["text/plain"]), ("Set-Cookie", ["a=1", "b=2"])],
    StatusCode := 200 }

/-- An environment in which `processRequest` returns the given response. -/
def envReturning (response : responseWithHeader) : Env :=
  { readUserIP := fun r => r.RemoteAddr,
    processRequest := fun _ => response,
    formatRFC3339 := fun t => toString t }

/-- An environment in which `processRequest` returns `responseExample`. -/
def envExample : Env := envReturning responseExample

/-- A response whose status code is the zero value. -/
def responseStatusZero : responseWithHeader :=
  { responseExample with StatusCode := 0 }

/-- A response with the informational status 100. -/
def responseContinue : responseWithHeader :=
  { responseExample with StatusCode := 100 }

/-- A response with status 204 and a body. -/
def responseNoContent : responseWithHeader :=
  { responseExample with StatusCode := 204 }

/-- A response that declares a `Content-Length` of 1 and has a body of 2 bytes. -/
def responseShortLength : responseWithHeader :=
  { responseExample with Header := [("Content-Length", ["1"])] }

/-- A plain HTTP request from `curl`. -/
def requestExample : Request :=
  { Method := "GET", RequestURI := "/London", RemoteAddr := "192.0.2.7",
    Header := [("User-Agent", ["curl/8.0"])], TLS := none }

/-- The request of `requestExample` with the method `HEAD`. -/
def requestHead : Request := { requestExample with Method := "HEAD" }

/-- A logger whose one counter holds the largest `int`. -/
def loggerMaxCount : RequestLogger :=
  { buf := [({ Proto := "http", IP := "192.0.2.7", URI := "/London", UserAgent := "curl/8.0" },
              9223372036854775807)],
    filename := "access.log", period := 60 * Second, lastFlush := 999 * Second }

/-- A world whose clock advances by one second per reading and whose disk works. -/
def worldExample : World :=
  { clock := fun n => 1000 * Second + n * Second, reads := 0, openErr := none,
    writeErr := none, files := [], trace := [] }

/-- A logger that flushed at second 999 and flushes every 60 seconds. -/
def loggerExample : RequestLogger :=
  { buf := [], filename := "access.log", period := 60 * Second, lastFlush := 999 * Second }

/-- A configuration with HTTPS only. -/
def confExample : ServerConf :=
  { PortHTTP := 0, PortHTTPS := 8443, TLSCertFile := "cert.pem", TLSKeyFile := "key.pem" }

/-- Listeners of which the HTTPS one fails to bind. -/
def listenersExample : Listeners :=
  { ListenAndServe := fun _ => none,
    ListenAndServeTLS := fun _ _ _ => some "listen tcp :8443: bind: address already in use",
    httpsSendsFirst := false }

/-- A logger with two buffered entries whose last flush was long ago. -/
def loggerDue : RequestLogger :=
  { buf := [({ Proto := "http", IP := "192.0.2.7", URI := "/London", UserAgent := "curl/8.0" }, 3),
            ({ Proto := "https", IP := "192.0.2.9", URI := "/Paris", UserAgent := "xh/0.1" }, 1)],
    filename := "access.log", period := 60 * Second, lastFlush := 0 }

/-- The world of `worldExample` with a disk on which the write fails. -/
def worldDiskFull : World :=
  { worldExample with writeErr := some (10, "write access.log: no space left on device") }

/-- A store of capacity 2. -/
def cacheTwo : Cache String responseWithHeader := { size := 2, items := [] }

/-- Two insertions that fill `cacheTwo`, then a read of the first key. -/
def accessesExample : List (Access String responseWithHeader) :=
  [Access.add "/London" responseExample, Access.add "/Paris" responseExample,
   Access.get "/London"]

/-! ## Maps -/

theorem index_store {κ α : Type} [DecidableEq κ] (zero : α) (m : List (κ × α)) (k k' : κ)
    (v : α) : index zero (store m k v) k' = if k = k' then v else index zero m k' := by
  induction m with
  | nil => simp [store, index]
  | cons kv m ih =>
    obtain ⟨k1, v1⟩ := kv
    by_cases h : k1 = k
    · subst h
      by_cases h2 : k1 = k' <;> simp [store, index, h2]
    · by_cases h2 : k1 = k'
      · subst h2
        simp [store, index, h, Ne.symm h]
      · simp [store, index, h, h2, ih]

theorem hasKey_store {κ α : Type} [DecidableEq κ] (m : List (κ × α)) (k k' : κ) (v : α) :
    hasKey (store m k v) k' = if k = k' then true else hasKey m k' := by
  induction m with
  | nil => simp [store, hasKey]
  | cons kv m ih =>
    obtain ⟨k1, v1⟩ := kv
    by_cases h : k1 = k
    · subst h
      by_cases h2 : k1 = k' <;> simp [store, hasKey, h2]
    · by_cases h2 : k1 = k'
      · subst h2
        simp [store, hasKey, h, Ne.symm h]
      · simp [store, hasKey, h, h2, ih]

theorem index_of_hasKey_false {κ α : Type} [DecidableEq κ] (zero : α) (m : List (κ × α))
    (k : κ) (h : hasKey m k = false) : index zero m k = zero := by
  induction m with
  | nil => rfl
  | cons kv m ih =>
    obtain ⟨k1, v1⟩ := kv
    by_cases h1 : k1 = k
    · simp [hasKey, h1] at h
    · simp only [hasKey, h1, if_false] at h
      simp [index, h1, ih h]

theorem hasKey_false_iff {κ α : Type} [DecidableEq κ] (m : List (κ × α)) (k : κ) :
    hasKey m k = false ↔ k ∉ m.map Prod.fst := by
  induction m with
  | nil => simp [hasKey]
  | cons kv m ih =>
    obtain ⟨k1, v1⟩ := kv
    by_cases h1 : k1 = k
    · simp [hasKey, h1]
    · simp only [hasKey, h1, if_false, ih]
      simp [Ne.symm h1]

/-! ## Headers -/

theorem values_Add (h : Header) (key value k : String) :
    (h.Add key value).values k
      = if CanonicalMIMEHeaderKey key = k then h.values k ++ [value] else h.values k := by
  unfold Header.Add Header.values
  simp only [index_store]
  by_cases hk : CanonicalMIMEHeaderKey key = k
  · simp [hk]
  · simp [hk]

theorem hasKey_Add (h : Header) (key value k : String) :
    hasKey (h.Add key value) k
      = if CanonicalMIMEHeaderKey key = k then true else hasKey h k := by
  unfold Header.Add
  simp only [hasKey_store]

theorem values_Set (h : Header) (key value k : String) :
    (h.Set key value).values k
      = if CanonicalMIMEHeaderKey key = k then [value] else h.values k := by
  unfold Header.Set Header.values
  simp only [index_store]

/-- The inner loop of `copyHeader`, on the values of one key. -/
theorem values_foldl_Add (vv : List String) (h : Header) (key k : String) :
    (vv.foldl (fun dst v => Header.Add dst key v) h).values k
      = if CanonicalMIMEHeaderKey key = k then h.values k ++ vv else h.values k := by
  induction vv generalizing h with
  | nil => simp
  | cons v vv ih =>
    simp only [List.foldl_cons, ih, values_Add]
    by_cases hk : CanonicalMIMEHeaderKey key = k <;> simp [hk]

theorem hasKey_foldl_Add (vv : List String) (h : Header) (key k : String) :
    hasKey (vv.foldl (fun dst v => Header.Add dst key v) h) k
      = if CanonicalMIMEHeaderKey key = k ∧ vv ≠ [] then true else hasKey h k := by
  induction vv generalizing h with
  | nil => simp
  | cons v vv ih =>
    simp only [List.foldl_cons, ih, hasKey_Add]
    by_cases hk : CanonicalMIMEHeaderKey key = k <;> simp [hk]

theorem values_copyHeader (src dst : Header) (k : String) :
    (copyHeader dst src).values k = dst.values k ++ addedUnder src k := by
  unfold copyHeader addedUnder
  induction src generalizing dst with
  | nil => simp
  | cons kvv src ih =>
    simp only [List.foldl_cons, ih, values_foldl_Add]
    by_cases hk : CanonicalMIMEHeaderKey kvv.1 = k
    · simp [hk, List.filter_cons]
    · simp [hk, List.filter_cons]

theorem hasKey_copyHeader_of_absent (src dst : Header) (k : String)
    (h : ∀ kvv ∈ src, CanonicalMIMEHeaderKey kvv.1 ≠ k) :
    hasKey (copyHeader dst src) k = hasKey dst k := by
  unfold copyHeader
  induction src generalizing dst with
  | nil => simp
  | cons kvv src ih =>
    simp only [List.foldl_cons]
    rw [ih _ (fun x hx => h x (List.mem_cons_of_mem _ hx)), hasKey_foldl_Add]
    simp [h kvv (List.mem_cons_self _ _)]

theorem addedUnder_of_canonical (src : Header) (k : String)
    (hcanon : ∀ kvv ∈ src, CanonicalMIMEHeaderKey kvv.1 = kvv.1)
    (hnodup : (src.map Prod.fst).Nodup) : addedUnder src k = src.values k := by
  unfold addedUnder Header.values
  induction src with
  | nil => simp [index]
  | cons kvv src ih =>
    obtain ⟨k1, vv⟩ := kvv
    have hc1 : CanonicalMIMEHeaderKey k1 = k1 := hcanon (k1, vv) (List.mem_cons_self _ _)
    have hcs : ∀ kvv ∈ src, CanonicalMIMEHeaderKey kvv.1 = kvv.1 :=
      fun x hx => hcanon x (List.mem_cons_of_mem _ hx)
    simp only [List.map_cons, List.nodup_cons] at hnodup
    by_cases hk : k1 = k
    · subst hk
      have hnone : src.filter (fun kvv => CanonicalMIMEHeaderKey kvv.1 = k1) = [] := by
        rw [List.filter_eq_nil_iff]
        intro x hx hcx
        have hx1 : x.1 = k1 := by
          have := hcs x hx
          simp only [decide_eq_true_eq] at hcx
          rw [this] at hcx
          exact hcx
        exact hnodup.1 (hx1 ▸ List.mem_map_of_mem Prod.fst hx)
      simp [List.filter_cons, hc1, hnone, index]
    · simp [List.filter_cons, hc1, hk, index, ih hcs hnodup.2]

theorem infix_flatMap_of_mem {α β : Type} (f : α → List β) (l : List α) (x : α)
    (hx : x ∈ l) : f x <:+: l.flatMap f := by
  induction l with
  | nil => cases hx
  | cons y l ih =>
    rw [List.flatMap_cons]
    rcases List.mem_cons.1 hx with rfl | hmem
    · exact (List.prefix_append (f x) (l.flatMap f)).isInfix
    · exact (ih hmem).trans (List.suffix_append _ _).isInfix

theorem join_cons (a : String) (l : List String) : String.join (a :: l) = a ++ String.join l := by
  apply String.ext
  simp [String.join_eq]

/-! ## The logger -/

theorem flushOutput_eq (env : Env) (buf : List (logEntry × Int)) (output : String) (w : World) :
    flushOutput env buf output w
      = (output ++ String.join ((List.enumFrom w.reads buf).map fun ikh =>
            logLine env (w.clock ikh.1) ikh.2.1 ikh.2.2),
          { w with reads := w.reads + buf.length }) := by
  induction buf generalizing output w with
  | nil => simp [flushOutput, String.join]
  | cons kh buf ih =>
    obtain ⟨k, hitsNumber⟩ := kh
    simp only [flushOutput, timeNow, ih, List.enumFrom_cons, List.map_cons, List.length_cons,
      join_cons, String.append_assoc]
    congr 2
    omega

theorem flush_trace (env : Env) (rl : RequestLogger) (w : World) :
    (rl.flush env w).2.2.trace = w.trace := by
  unfold RequestLogger.flush timeSince timeNow
  simp only [flushOutput_eq]
  split
  · rfl
  · unfold openFile
    cases hopen : w.openErr with
    | some err => simp
    | none =>
      unfold fileWrite
      cases hwrite : w.writeErr with
      | some nerr => simp
      | none => simp

theorem Log_trace (env : Env) (rl : RequestLogger) (r : Request) (w : World) :
    (rl.Log env r w).2.2.trace = w.trace := by
  unfold RequestLogger.Log timeSince timeNow
  simp only
  split
  · rw [flush_trace]
  · rfl

/-! ## The response writer -/

theorem canonical_allow_origin :
    CanonicalMIMEHeaderKey "Access-Control-Allow-Origin" = "Access-Control-Allow-Origin" := by
  decide

theorem index_remove {κ α : Type} [DecidableEq κ] (zero : α) (m : List (κ × α)) (k k' : κ)
    (h : k' ≠ k) : index zero (remove m k) k' = index zero m k' := by
  unfold remove
  induction m with
  | nil => rfl
  | cons kv m ih =>
    obtain ⟨k1, v1⟩ := kv
    simp only [ne_eq, decide_not] at ih
    by_cases h1 : k1 = k
    · subst h1
      simp [List.filter_cons, index, Ne.symm h, ih]
    · by_cases h2 : k1 = k'
      · subst h2
        simp [List.filter_cons, index, h1]
      · simp [List.filter_cons, index, h1, h2, ih]

theorem parseInt64_empty : parseInt64 "" = none := by
  decide

theorem WriteHeader_invalid (w : ResponseWriter) (code : Int) (hw : w.wroteHeader = false)
    (hcode : code < 100 ∨ code > 999) :
    w.WriteHeader code = Except.error ("invalid WriteHeader code " ++ toString code) := by
  unfold ResponseWriter.WriteHeader
  simp [hw, hcode]

theorem WriteHeader_informational (w : ResponseWriter) (code : Int)
    (hw : w.wroteHeader = false) (hcode : 100 ≤ code ∧ code ≤ 199 ∧ code ≠ 101) :
    w.WriteHeader code
      = Except.ok { w with sentInformational := w.sentInformational ++
          [(code, remove (remove w.header "Content-Length") "Transfer-Encoding")] } := by
  have hvalid : ¬ (code < 100 ∨ code > 999) := by omega
  unfold ResponseWriter.WriteHeader
  simp only [hw, Bool.false_eq_true, if_false, hvalid, hcode, and_self, if_true]
  simp [hcode.2.2]

theorem WriteHeader_final (w : ResponseWriter) (code : Int) (hw : w.wroteHeader = false)
    (hlo : 200 ≤ code ∨ code = 101) (hhi : code ≤ 999) :
    ∃ w1, w.WriteHeader code = Except.ok w1 ∧ w1.wroteHeader = true ∧
      w1.sentStatus = code ∧ w1.sentHeader = w.header ∧
      w1.sentInformational = w.sentInformational ∧ w1.sentBody = w.sentBody ∧
      w1.reqMethod = w.reqMethod ∧ w1.written = w.written ∧
      (w.contentLength = -1 → w1.contentLength = declaredLength w.header) ∧
      (∀ k, k ≠ "Content-Length" → w1.header.values k = w.header.values k) := by
  have hvalid : ¬ (code < 100 ∨ code > 999) := by omega
  have hfinal : ¬ (100 ≤ code ∧ code ≤ 199 ∧ code ≠ 101) := by omega
  unfold ResponseWriter.WriteHeader declaredLength
  simp only [hw, Bool.false_eq_true, if_false, hvalid, hfinal]
  by_cases hcl : w.header.get "Content-Length" = ""
  · simp only [hcl, ne_eq, not_true_eq_false, if_false, parseInt64_empty]
    exact ⟨_, rfl, rfl, rfl, rfl, rfl, rfl, rfl, rfl, fun h => h, fun _ _ => rfl⟩
  · simp only [ne_eq, hcl, not_false_eq_true, if_true]
    cases hp : parseInt64 (w.header.get "Content-Length") with
    | none =>
      refine ⟨_, rfl, rfl, rfl, rfl, rfl, rfl, rfl, rfl, fun h => h, ?_⟩
      intro k hk
      exact index_remove [] w.header "Content-Length" k hk
    | some v =>
      by_cases hv : v ≥ 0
      · simp only [hv, if_true]
        exact ⟨_, rfl, rfl, rfl, rfl, rfl, rfl, rfl, rfl, fun _ => rfl, fun _ _ => rfl⟩
      · simp only [hv, if_false]
        refine ⟨_, rfl, rfl, rfl, rfl, rfl, rfl, rfl, rfl, fun h => h, ?_⟩
        intro k hk
        exact index_remove [] w.header "Content-Length" k hk

theorem Write_of_wrote (w : ResponseWriter) (b : List UInt8) (hw : w.wroteHeader = true) :
    (w.Write b).1.wroteHeader = true ∧ (w.Write b).1.sentStatus = w.sentStatus ∧
    (w.Write b).1.sentHeader = w.sentHeader ∧
    (w.Write b).1.sentInformational = w.sentInformational ∧
    (w.Write b).1.header = w.header ∧
    (b = [] → (w.Write b).1.sentBody = w.sentBody) ∧
    (bodyAllowedForStatus w.sentStatus = true →
      (w.contentLength = -1 ∨ w.written + b.length ≤ w.contentLength) →
      w.reqMethod ≠ "HEAD" → (w.Write b).1.sentBody = w.sentBody ++ b) := by
  unfold ResponseWriter.Write
  simp only [hw, if_true]
  split
  · rename_i hb
    have hnil : b = [] := List.length_eq_zero.1 hb
    exact ⟨hw, rfl, rfl, rfl, rfl, fun _ => rfl, fun _ _ _ => by simp [hnil]⟩
  · rename_i hb
    have hne : b ≠ [] := fun h => hb (by simp [h])
    split
    · rename_i hallowed
      refine ⟨hw, rfl, rfl, rfl, rfl, fun h => absurd h hne, ?_⟩
      intro h
      rw [h] at hallowed
      simp at hallowed
    · split
      · rename_i hfit
        refine ⟨rfl, rfl, rfl, rfl, rfl, fun h => absurd h hne, ?_⟩
        intro _ hor _
        rcases hor with h1 | h2
        · exact absurd h1 hfit.1
        · omega
      · split
        · rename_i hhead
          exact ⟨rfl, rfl, rfl, rfl, rfl, fun h => absurd h hne, fun _ _ h => absurd hhead h⟩
        · exact ⟨rfl, rfl, rfl, rfl, rfl, fun h => absurd h hne, fun _ _ _ => rfl⟩

theorem Write_of_unwritten (w w1 : ResponseWriter) (b : List UInt8)
    (hw : w.wroteHeader = false) (h : w.WriteHeader 200 = Except.ok w1)
    (hw1 : w1.wroteHeader = true) : w.Write b = w1.Write b := by
  unfold ResponseWriter.Write
  simp only [hw, Bool.false_eq_true, if_false, h, hw1, if_true]

theorem rootHandler_respond (env : Env) (logger : RequestLogger) (w : ResponseWriter)
    (r : Request) (world : World) :
    (rootHandler env logger w r world).2.1 = (respond w (env.processRequest r)).1 ∧
    (rootHandler env logger w r world).2.2.2 = (respond w (env.processRequest r)).2 := by
  unfold rootHandler respond
  simp only
  split <;> exact ⟨rfl, rfl⟩

/-- The header map the root handler has built when it calls `WriteHeader`. -/
theorem respond_eq (w : ResponseWriter) (response : responseWithHeader) :
    respond w response
      = match ResponseWriter.WriteHeader
            { w with header := (Header.Set (copyHeader w.header response.Header)
                "Access-Control-Allow-Origin" "*") } response.StatusCode with
        | Except.error msg =>
          ({ w with header := (Header.Set (copyHeader w.header response.Header)
              "Access-Control-Allow-Origin" "*") }, some msg)
        | Except.ok w1 => ((w1.Write response.Body).1, none) := by
  rfl

theorem respond_invalid (h0 : Header) (r : Request) (response : responseWithHeader)
    (hcode : response.StatusCode < 100 ∨ response.StatusCode > 999) :
    respond (ResponseWriter.fresh h0 r) response
      = ({ ResponseWriter.fresh h0 r with
            header := (Header.Set (copyHeader h0 response.Header)
              "Access-Control-Allow-Origin" "*") },
          some ("invalid WriteHeader code " ++ toString response.StatusCode)) := by
  rw [respond_eq, WriteHeader_invalid _ _ rfl hcode]
  rfl

theorem respond_valid (h0 : Header) (r : Request) (response : responseWithHeader)
    (hlo : 100 ≤ response.StatusCode) (hhi : response.StatusCode ≤ 999) :
    (respond (ResponseWriter.fresh h0 r) response).2 = none ∧
    (respond (ResponseWriter.fresh h0 r) response).1.wroteHeader = true ∧
    (respond (ResponseWriter.fresh h0 r) response).1.sentHeader
      = Header.Set (copyHeader h0 response.Header) "Access-Control-Allow-Origin" "*" ∧
    (respond (ResponseWriter.fresh h0 r) response).1.sentStatus
      = (if 200 ≤ response.StatusCode ∨ response.StatusCode = 101 then response.StatusCode
         else 200) ∧
    (respond (ResponseWriter.fresh h0 r) response).1.sentInformational
      = (if 200 ≤ response.StatusCode ∨ response.StatusCode = 101 then []
         else [(response.StatusCode,
                remove (remove (Header.Set (copyHeader h0 response.Header)
                  "Access-Control-Allow-Origin" "*") "Content-Length") "Transfer-Encoding")]) ∧
    (∀ k, k ≠ "Content-Length" →
      (respond (ResponseWriter.fresh h0 r) response).1.header.values k
        = (Header.Set (copyHeader h0 response.Header)
            "Access-Control-Allow-Origin" "*").values k) ∧
    (response.Body = [] → (respond (ResponseWriter.fresh h0 r) response).1.sentBody = []) ∧
    (bodyAllowedForStatus (respond (ResponseWriter.fresh h0 r) response).1.sentStatus = true →
      (declaredLength (Header.Set (copyHeader h0 response.Header)
            "Access-Control-Allow-Origin" "*") = -1 ∨
        (response.Body.length : Int) ≤ declaredLength (Header.Set
          (copyHeader h0 response.Header) "Access-Control-Allow-Origin" "*")) →
      r.Method ≠ "HEAD" →
      (respond (ResponseWriter.fresh h0 r) response).1.sentBody = response.Body) := by
  rw [respond_eq]
  by_cases hfinal : 200 ≤ response.StatusCode ∨ response.StatusCode = 101
  · obtain ⟨w1, hWH, hw1, hst, hsh, hsi, hsb, hm, hwr, hcl, hhd⟩ :=
      WriteHeader_final
        { ResponseWriter.fresh h0 r with
          header := (Header.Set (copyHeader h0 response.Header)
            "Access-Control-Allow-Origin" "*") }
        response.StatusCode rfl hfinal hhi
    have hcl' := hcl rfl
    obtain ⟨g1, g2, g3, g4, g5, g6, g7⟩ := Write_of_wrote w1 response.Body hw1
    simp only [ResponseWriter.fresh] at hWH hsh hsi hsb hm hwr hcl' hhd ⊢
    rw [hWH]
    simp only [hfinal, if_true]
    refine ⟨trivial, g1, by rw [g3, hsh], by rw [g2, hst], by rw [g4, hsi], ?_, ?_, ?_⟩
    · intro k hk
      rw [g5]
      exact hhd k hk
    · intro hb
      rw [g6 hb, hsb]
    · intro hallowed hfit hhead
      rw [g2] at hallowed
      rw [g7 hallowed (by rw [hcl', hwr]; simpa using hfit) (by rw [hm]; exact hhead), hsb]
      rfl
  · have hinf : 100 ≤ response.StatusCode ∧ response.StatusCode ≤ 199 ∧
        response.StatusCode ≠ 101 := by omega
    have hWH := WriteHeader_informational
        { ResponseWriter.fresh h0 r with
          header := (Header.Set (copyHeader h0 response.Header)
            "Access-Control-Allow-Origin" "*") }
        response.StatusCode rfl hinf
    obtain ⟨w1, h200, hw1, hst, hsh, hsi, hsb, hm, hwr, hcl, hhd⟩ :=
      WriteHeader_final
        { ResponseWriter.fresh h0 r with
          header := (Header.Set (copyHeader h0 response.Header)
            "Access-Control-Allow-Origin" "*"),
          sentInformational := (ResponseWriter.fresh h0 r).sentInformational ++
            [(response.StatusCode,
              remove (remove (Header.Set (copyHeader h0 response.Header)
                "Access-Control-Allow-Origin" "*") "Content-Length") "Transfer-Encoding")] }
        200 rfl (Or.inl (le_refl _)) (by decide)
    have hcl' := hcl rfl
    obtain ⟨g1, g2, g3, g4, g5, g6, g7⟩ := Write_of_wrote w1 response.Body hw1
    simp only [ResponseWriter.fresh] at hWH h200 hsh hsi hsb hm hwr hcl' hhd ⊢
    rw [hWH]
    simp only [hfinal, if_false]
    rw [Write_of_unwritten _ w1 response.Body rfl h200 hw1]
    refine ⟨trivial, g1, by rw [g3, hsh], by rw [g2, hst], by rw [g4, hsi]; rfl, ?_, ?_, ?_⟩
    · intro k hk
      rw [g5]
      exact hhd k hk
    · intro hb
      rw [g6 hb, hsb]
    · intro hallowed hfit hhead
      rw [g2] at hallowed
      rw [g7 hallowed (by rw [hcl', hwr]; simpa using hfit) (by rw [hm]; exact hhead), hsb]
      rfl

theorem declaredLength_Set (h : Header) :
    declaredLength (Header.Set h "Access-Control-Allow-Origin" "*") = declaredLength h := by
  unfold declaredLength Header.get
  rw [values_Set, canonical_allow_origin, if_neg (by decide)]

theorem rootHandler_world (env : Env) (logger : RequestLogger) (w : ResponseWriter)
    (r : Request) (world : World) :
    (rootHandler env logger w r world).2.2.1.trace
      = world.trace ++ [Event.loggerLog r]
        ++ (match (logger.Log env r
              { world with trace := world.trace ++ [Event.loggerLog r] }).1 with
            | some err => [Event.logPrintln err]
            | none => [])
        ++ [Event.processRequest r] ∧
    (rootHandler env logger w r world).1
      = (logger.Log env r { world with trace := world.trace ++ [Event.loggerLog r] }).2.1 := by
  have ht := Log_trace env logger r { world with trace := world.trace ++ [Event.loggerLog r] }
  unfold rootHandler
  simp only
  split <;>
    cases herr : (logger.Log env r
      { world with trace := world.trace ++ [Event.loggerLog r] }).1 <;>
    simp [logPrintln, ht]

/-! ## The claims -/

/-- C1, as stated, fails for a response whose status code is 0: `WriteHeader`
panics, the handler ends there, and no header map is sent to the client. -/
theorem rootHandler_status_zero_sends_nothing :
    (rootHandler (envReturning responseStatusZero) loggerExample
        (ResponseWriter.fresh [] requestExample) requestExample worldExample).2.2.2
      = some "invalid WriteHeader code 0" ∧
    (rootHandler (envReturning responseStatusZero) loggerExample
        (ResponseWriter.fresh [] requestExample) requestExample worldExample).2.1.wroteHeader
      = false ∧
    (rootHandler (envReturning responseStatusZero) loggerExample
        (ResponseWriter.fresh [] requestExample) requestExample
        worldExample).2.1.sentInformational = [] ∧
    (rootHandler (envReturning responseStatusZero) loggerExample
        (ResponseWriter.fresh [] requestExample) requestExample
        worldExample).2.1.sentHeader.values "Access-Control-Allow-Origin" ≠ ["*"] := by
  decide

/-- C1, amended: whatever the response and the initial header map, the writer's
header map holds exactly `*` under `Access-Control-Allow-Origin` once the
handler has run; and when the status code of the response is from 100 to 999,
the handler does not panic, the header map of the response is sent, and it and
every informational header block sent before it hold exactly `*` under that name. -/
theorem rootHandler_allow_origin (env : Env) (logger : RequestLogger) (h0 : Header)
    (r : Request) (world : World) :
    (rootHandler env logger (ResponseWriter.fresh h0 r) r world).2.1.header.values
      "Access-Control-Allow-Origin" = ["*"] ∧
    (100 ≤ (env.processRequest r).StatusCode ∧ (env.processRequest r).StatusCode ≤ 999 →
      (rootHandler env logger (ResponseWriter.fresh h0 r) r world).2.2.2 = none ∧
      (rootHandler env logger (ResponseWriter.fresh h0 r) r world).2.1.wroteHeader = true ∧
      (rootHandler env logger (ResponseWriter.fresh h0 r) r world).2.1.sentHeader.values
        "Access-Control-Allow-Origin" = ["*"] ∧
      ∀ blk ∈ (rootHandler env logger (ResponseWriter.fresh h0 r) r world).2.1.sentInformational,
        blk.2.values "Access-Control-Allow-Origin" = ["*"]) := by
  obtain ⟨hw, hp⟩ := rootHandler_respond env logger (ResponseWriter.fresh h0 r) r world
  rw [hw, hp]
  have hH : (Header.Set (copyHeader h0 (env.processRequest r).Header)
      "Access-Control-Allow-Origin" "*").values "Access-Control-Allow-Origin" = ["*"] := by
    rw [values_Set, canonical_allow_origin, if_pos rfl]
  have hvalid : 100 ≤ (env.processRequest r).StatusCode ∧
      (env.processRequest r).StatusCode ≤ 999 →
      (respond (ResponseWriter.fresh h0 r) (env.processRequest r)).1.header.values
          "Access-Control-Allow-Origin" = ["*"] ∧
      (respond (ResponseWriter.fresh h0 r) (env.processRequest r)).2 = none ∧
      (respond (ResponseWriter.fresh h0 r) (env.processRequest r)).1.wroteHeader = true ∧
      (respond (ResponseWriter.fresh h0 r) (env.processRequest r)).1.sentHeader.values
        "Access-Control-Allow-Origin" = ["*"] ∧
      ∀ blk ∈ (respond (ResponseWriter.fresh h0 r) (env.processRequest r)).1.sentInformational,
        blk.2.values "Access-Control-Allow-Origin" = ["*"] := by
    intro hcode
    obtain ⟨g1, g2, g3, -, g5, g6, -, -⟩ :=
      respond_valid h0 r (env.processRequest r) hcode.1 hcode.2
    refine ⟨?_, g1, g2, by rw [g3, hH], ?_⟩
    · rw [g6 _ (by decide), hH]
    · intro blk hblk
      rw [g5] at hblk
      split at hblk
      · cases hblk
      · rw [List.mem_singleton] at hblk
        rw [hblk]
        show index [] (remove (remove _ "Content-Length") "Transfer-Encoding") _ = _
        rw [index_remove _ _ _ _ (by decide), index_remove _ _ _ _ (by decide)]
        exact hH
  constructor
  · by_cases hcode : 100 ≤ (env.processRequest r).StatusCode ∧
        (env.processRequest r).StatusCode ≤ 999
    · exact (hvalid hcode).1
    · rw [respond_invalid h0 r _ (by omega)]
      exact hH
  · intro hcode
    exact (hvalid hcode).2

/-- C1, amended, at a response with status 200 that carries its own
`Access-Control-Allow-Origin`. -/
theorem rootHandler_allow_origin_witness :
    (rootHandler envExample loggerExample (ResponseWriter.fresh [] requestExample)
        requestExample worldExample).2.1.wroteHeader = true ∧
    (rootHandler envExample loggerExample (ResponseWriter.fresh [] requestExample)
        requestExample worldExample).2.1.sentHeader.values "Access-Control-Allow-Origin"
      = ["*"] :=
  ⟨((rootHandler_allow_origin envExample loggerExample [] requestExample worldExample).2
      (by decide)).2.1,
   ((rootHandler_allow_origin envExample loggerExample [] requestExample worldExample).2
      (by decide)).2.2.1⟩

/-- C3, as stated, fails.  The writer's header map starts empty in each case.
The upstream value `https://example.org` under `Access-Control-Allow-Origin` is
replaced by `*`; with status 0 the handler panics and nothing is delivered;
with status 100 the client is sent status 200 after the informational block;
with status 204, with a `HEAD` request, and with a declared `Content-Length`
of 1, the two body bytes are not delivered. -/
theorem rootHandler_delivery_differs :
    (hasKey (envExample.processRequest requestExample).Header "Access-Control-Allow-Origin"
        = true ∧
      (envExample.processRequest requestExample).Header.values "Access-Control-Allow-Origin"
        = ["https://example.org"] ∧
      (rootHandler envExample loggerExample (ResponseWriter.fresh [] requestExample)
          requestExample worldExample).2.1.sentHeader.values "Access-Control-Allow-Origin"
        = ["*"]) ∧
    ((rootHandler (envReturning responseStatusZero) loggerExample
          (ResponseWriter.fresh [] requestExample) requestExample worldExample).2.1.wroteHeader
        = false ∧
      (rootHandler (envReturning responseStatusZero) loggerExample
          (ResponseWriter.fresh [] requestExample) requestExample worldExample).2.1.sentBody
        = []) ∧
    (rootHandler (envReturning responseContinue) loggerExample
        (ResponseWriter.fresh [] requestExample) requestExample worldExample).2.1.sentStatus
      = 200 ∧
    (rootHandler (envReturning responseNoContent) loggerExample
        (ResponseWriter.fresh [] requestExample) requestExample worldExample).2.1.sentBody
      = [] ∧
    (rootHandler envExample loggerExample
        (ResponseWriter.fresh [] requestHead) requestHead worldExample).2.1.sentBody
      = [] ∧
    (rootHandler (envReturning responseShortLength) loggerExample
        (ResponseWriter.fresh [] requestExample) requestExample worldExample).2.1.sentBody
      = [] := by
  decide

/-- C3, amended: with a writer whose header map starts empty and a response
whose status code is from 200 to 999, the handler does not panic and the client
is sent the status code of the response, for every header name of the response
whose canonical form is not `Access-Control-Allow-Origin` all its values, in
order and adjacent, under the canonical form of the name, and the single value
`*` under `Access-Control-Allow-Origin`.  It is sent the body of the response
when the body is empty, or when the status code is neither 204 nor 304, the
request is not a `HEAD` request and the copied headers declare no
`Content-Length` below the length of the body. -/
theorem rootHandler_delivers (env : Env) (logger : RequestLogger) (r : Request)
    (world : World)
    (hcode : 200 ≤ (env.processRequest r).StatusCode ∧
      (env.processRequest r).StatusCode ≤ 999) :
    (rootHandler env logger (ResponseWriter.fresh [] r) r world).2.2.2 = none ∧
    (rootHandler env logger (ResponseWriter.fresh [] r) r world).2.1.sentStatus
      = (env.processRequest r).StatusCode ∧
    (∀ kvv ∈ (env.processRequest r).Header,
      CanonicalMIMEHeaderKey kvv.1 ≠ "Access-Control-Allow-Origin" →
      kvv.2 <:+: (rootHandler env logger (ResponseWriter.fresh [] r) r world).2.1.sentHeader.values
        (CanonicalMIMEHeaderKey kvv.1)) ∧
    (rootHandler env logger (ResponseWriter.fresh [] r) r world).2.1.sentHeader.values
      "Access-Control-Allow-Origin" = ["*"] ∧
    ((env.processRequest r).Body = [] ∨
      ((env.processRequest r).StatusCode ≠ 204 ∧ (env.processRequest r).StatusCode ≠ 304 ∧
        r.Method ≠ "HEAD" ∧
        (declaredLength (copyHeader [] (env.processRequest r).Header) = -1 ∨
          ((env.processRequest r).Body.length : Int)
            ≤ declaredLength (copyHeader [] (env.processRequest r).Header))) →
      (rootHandler env logger (ResponseWriter.fresh [] r) r world).2.1.sentBody
        = (env.processRequest r).Body) := by
  obtain ⟨hw, hp⟩ := rootHandler_respond env logger (ResponseWriter.fresh [] r) r world
  rw [hw, hp]
  obtain ⟨g1, -, g3, g4, -, -, g7, g8⟩ :=
    respond_valid [] r (env.processRequest r) (by omega) hcode.2
  have hst : (respond (ResponseWriter.fresh [] r) (env.processRequest r)).1.sentStatus
      = (env.processRequest r).StatusCode := by
    rw [g4, if_pos (Or.inl hcode.1)]
  refine ⟨g1, hst, ?_, ?_, ?_⟩
  · intro kvv hmem hne
    rw [g3, values_Set, canonical_allow_origin, if_neg (Ne.symm hne), values_copyHeader]
    have hin : kvv ∈ (env.processRequest r).Header.filter
        (fun x => CanonicalMIMEHeaderKey x.1 = CanonicalMIMEHeaderKey kvv.1) := by
      simp [List.mem_filter, hmem]
    have := infix_flatMap_of_mem Prod.snd _ kvv hin
    simpa [addedUnder, Header.values, index] using this
  · rw [g3, values_Set, canonical_allow_origin, if_pos rfl]
  · rintro (hempty | ⟨h204, h304, hhead, hfit⟩)
    · rw [g7 hempty, hempty]
    · apply g8
      · rw [hst]
        unfold bodyAllowedForStatus
        have h1 : ¬ (100 ≤ (env.processRequest r).StatusCode ∧
            (env.processRequest r).StatusCode ≤ 199) := by omega
        simp [h1, h204, h304]
      · rw [declaredLength_Set]
        exact hfit
      · exact hhead

/-- C3, amended, at `responseExample`: the two `Set-Cookie` values arrive in
order, and so do the two body bytes. -/
theorem rootHandler_delivers_witness :
    ["a=1", "b=2"] <:+:
      (rootHandler envExample loggerExample (ResponseWriter.fresh [] requestExample)
        requestExample worldExample).2.1.sentHeader.values
        (CanonicalMIMEHeaderKey "Set-Cookie") ∧
    (rootHandler envExample loggerExample (ResponseWriter.fresh [] requestExample)
        requestExample worldExample).2.1.sentBody = [111, 107] :=
  ⟨(rootHandler_delivers envExample loggerExample requestExample worldExample
      (by decide)).2.2.1 ("Set-Cookie", ["a=1", "b=2"]) (by decide) (by decide),
   (rootHandler_delivers envExample loggerExample requestExample worldExample
      (by decide)).2.2.2.2 (Or.inr (by decide))⟩

/-- C4: the root handler calls `logger.Log` once, before `processRequest`, and
the response does not depend on its outcome: whatever the logger and the world
are (so whether `Log` returns nil or an error), the writer ends in the state
derived from the result of `processRequest`, and so does the handler; an error
of `Log` is printed and the handler goes on. -/
theorem rootHandler_ignores_logger (env : Env) (logger : RequestLogger) (w : ResponseWriter)
    (r : Request) (world : World) :
    (rootHandler env logger w r world).2.1
      = (match ResponseWriter.WriteHeader
            { w with header := (Header.Set (copyHeader w.header (env.processRequest r).Header)
                "Access-Control-Allow-Origin" "*") } (env.processRequest r).StatusCode with
        | Except.error _ =>
          { w with header := (Header.Set (copyHeader w.header (env.processRequest r).Header)
              "Access-Control-Allow-Origin" "*") }
        | Except.ok w1 => (w1.Write (env.processRequest r).Body).1) ∧
    (rootHandler env logger w r world).2.2.2
      = (match ResponseWriter.WriteHeader
            { w with header := (Header.Set (copyHeader w.header (env.processRequest r).Header)
                "Access-Control-Allow-Origin" "*") } (env.processRequest r).StatusCode with
        | Except.error msg => some msg
        | Except.ok _ => none) ∧
    (∀ (logger' : RequestLogger) (world' : World),
      (rootHandler env logger' w r world').2.1 = (rootHandler env logger w r world).2.1 ∧
      (rootHandler env logger' w r world').2.2.2 = (rootHandler env logger w r world).2.2.2) ∧
    (rootHandler env logger w r world).2.2.1.trace
      = world.trace ++ [Event.loggerLog r]
        ++ (match (logger.Log env r
              { world with trace := world.trace ++ [Event.loggerLog r] }).1 with
            | some err => [Event.logPrintln err]
            | none => [])
        ++ [Event.processRequest r] ∧
    (rootHandler env logger w r world).1
      = (logger.Log env r { world with trace := world.trace ++ [Event.loggerLog r] }).2.1 := by
  obtain ⟨hw, hp⟩ := rootHandler_respond env logger w r world
  refine ⟨?_, ?_, ?_, rootHandler_world env logger w r world⟩
  · rw [hw, respond_eq]
    split <;> rfl
  · rw [hp, respond_eq]
    split <;> rfl
  · intro logger' world'
    obtain ⟨hw', hp'⟩ := rootHandler_respond env logger' w r world'
    exact ⟨by rw [hw, hw'], by rw [hp, hp']⟩

/-- C4 at two runs of the handler on one request: with a logger that only
counts, and with a logger whose flush fails on a full disk.  `Log` returns an
error in the second, the error is printed, and the writer ends in the same state. -/
theorem rootHandler_ignores_logger_witness :
    (loggerExample.Log envExample requestExample
      { worldExample with trace := [Event.loggerLog requestExample] }).1 = none ∧
    (loggerDue.Log envExample requestExample
      { worldDiskFull with trace := [Event.loggerLog requestExample] }).1
      = some "write access.log: no space left on device" ∧
    (rootHandler envExample loggerDue (ResponseWriter.fresh [] requestExample) requestExample
        worldDiskFull).2.1
      = (rootHandler envExample loggerExample (ResponseWriter.fresh [] requestExample)
          requestExample worldExample).2.1 ∧
    (rootHandler envExample loggerDue (ResponseWriter.fresh [] requestExample) requestExample
        worldDiskFull).2.2.1.trace
      = [Event.loggerLog requestExample,
         Event.logPrintln "write access.log: no space left on device",
         Event.processRequest requestExample] :=
  ⟨by decide, by decide,
   ((rootHandler_ignores_logger envExample loggerExample
      (ResponseWriter.fresh [] requestExample) requestExample worldExample).2.2.1
        loggerDue worldDiskFull).1,
   by decide⟩

/-- C2: `copyHeader` appends and never overwrites.  For a source map with
canonical keys, every key `k` ends with the old values of `dst` followed by the
values of `src` under `k`, and a key absent from `src` keeps its value list and
its presence. -/
theorem copyHeader_appends (dst src : Header)
    (hcanon : ∀ kvv ∈ src, CanonicalMIMEHeaderKey kvv.1 = kvv.1)
    (hnodup : (src.map Prod.fst).Nodup) :
    (∀ k, (copyHeader dst src).values k = dst.values k ++ src.values k) ∧
    (∀ k, hasKey src k = false →
      (copyHeader dst src).values k = dst.values k ∧
      hasKey (copyHeader dst src) k = hasKey dst k) := by
  have hall : ∀ k, (copyHeader dst src).values k = dst.values k ++ src.values k := by
    intro k
    rw [values_copyHeader, addedUnder_of_canonical src k hcanon hnodup]
  refine ⟨hall, ?_⟩
  intro k hk
  constructor
  · rw [hall k]
    unfold Header.values
    rw [index_of_hasKey_false [] src k hk]
    simp
  · apply hasKey_copyHeader_of_absent
    intro kvv hmem hcan
    rw [hcanon kvv hmem] at hcan
    have := (hasKey_false_iff src k).1 hk
    exact this (hcan ▸ List.mem_map_of_mem Prod.fst hmem)

/-- C2 at a destination and a source that share the key `Set-Cookie`. -/
theorem copyHeader_appends_witness :
    (∀ k, (copyHeader dstExample srcExample).values k
        = dstExample.values k ++ srcExample.values k) ∧
    (∀ k, hasKey srcExample k = false →
      (copyHeader dstExample srcExample).values k = dstExample.values k ∧
      hasKey (copyHeader dstExample srcExample) k = hasKey dstExample k) :=
  copyHeader_appends dstExample srcExample (by decide) (by decide)

/-- C5: the dial function installed by `init` ignores the requested address:
it dials `127.0.0.1:9002` on the given network, with a connect timeout and a
keep-alive of 30 seconds each. -/
theorem DialContext_fixed_upstream (ctx : Context) (network address address' : String) :
    DialContext ctx network address = DialContext ctx network address' ∧
    (DialContext ctx network address).address = "127.0.0.1:9002" ∧
    (DialContext ctx network address).network = network ∧
    (DialContext ctx network address).ctx = ctx ∧
    (DialContext ctx network address).dialer.Timeout = 30 * Second ∧
    (DialContext ctx network address).dialer.KeepAlive = 30 * Second :=
  ⟨rfl, rfl, rfl, rfl, rfl, rfl⟩

/-- C6: `main` starts the HTTP listener iff `PortHTTP` is not 0 and the HTTPS
listener iff `PortHTTPS` is not 0, `numberOfServers` counts the ports that are
not 0, `main` returns (after printing, without reading `errs`) iff both ports
are 0, and otherwise it reads `errs` and exits fatally with the first error
sent, blocking as long as there is none. -/
theorem main_listeners (conf : ServerConf) (ls : Listeners) :
    (main conf ls).started
      = (if conf.PortHTTP ≠ 0 then [Goroutine.serveHTTP conf.PortHTTP] else [])
        ++ (if conf.PortHTTPS ≠ 0 then [Goroutine.serveHTTPS conf.PortHTTPS] else []) ∧
    (main conf ls).numberOfServers
      = (if conf.PortHTTP ≠ 0 then 1 else 0) + (if conf.PortHTTPS ≠ 0 then 1 else 0) ∧
    ((main conf ls).exit = Exit.returned ↔ conf.PortHTTP = 0 ∧ conf.PortHTTPS = 0) ∧
    (conf.PortHTTP = 0 ∧ conf.PortHTTPS = 0 →
      (main conf ls).printed = ["no servers configured; exiting"] ∧
      (main conf ls).readErrs = false) ∧
    (¬ (conf.PortHTTP = 0 ∧ conf.PortHTTPS = 0) →
      (main conf ls).readErrs = true ∧
      (main conf ls).exit
        = match (sentOnErrs ls conf (main conf ls).started).head? with
          | some err => Exit.fatal err
          | none => Exit.blocked) := by
  have hne : ∀ sent : List String, fatalOnFirst sent ≠ Exit.returned := by
    intro sent
    unfold fatalOnFirst
    cases sent.head? <;> simp
  by_cases h1 : conf.PortHTTP = 0 <;> by_cases h2 : conf.PortHTTPS = 0 <;>
    simp [main, h1, h2, hne] <;> rfl

/-- C6 with HTTPS only: `main` reads `errs` and exits with the listener's error. -/
theorem main_listeners_witness :
    (main confExample listenersExample).readErrs = true ∧
    (main confExample listenersExample).exit
      = Exit.fatal "listen tcp :8443: bind: address already in use" :=
  (main_listeners confExample listenersExample).2.2.2.2 (by decide)

theorem wrapInt_of_inRange (n : Int) (hlo : -(2 ^ 63) ≤ n) (hhi : n < 2 ^ 63) :
    wrapInt n = n := by
  unfold wrapInt
  rw [Int.emod_eq_of_lt (by omega) (by omega)]
  omega

/-- C9, as stated, fails for a logger whose counter for the entry holds the
largest `int`: within the period `Log` returns nil and the counter wraps to
-2^63 instead of growing by one. -/
theorem Log_wraps_at_max :
    (loggerMaxCount.Log envExample requestExample worldExample).1 = none ∧
    index 0 loggerMaxCount.buf
      { Proto := "http", IP := "192.0.2.7", URI := "/London", UserAgent := "curl/8.0" }
      = 9223372036854775807 ∧
    index 0 (loggerMaxCount.Log envExample requestExample worldExample).2.1.buf
      { Proto := "http", IP := "192.0.2.7", URI := "/London", UserAgent := "curl/8.0" }
      = -9223372036854775808 := by
  decide

/-- C9, amended: when at most `period` has elapsed since `lastFlush`, `Log`
returns nil, leaves the files and `lastFlush` (and the file name and the period)
as they were, and changes no count but that of the entry built from the request,
whose `Proto` is `https` iff the request has TLS state.  To that count it adds
one in the 64-bit arithmetic of `int`: exactly one when the count is below
2^63 - 1, and from 2^63 - 1 the count wraps. -/
theorem Log_buffers (env : Env) (rl : RequestLogger) (r : Request) (w : World)
    (h : timeSub (w.clock w.reads) rl.lastFlush ≤ rl.period) :
    (rl.Log env r w).1 = none ∧
    (rl.Log env r w).2.2.files = w.files ∧
    (rl.Log env r w).2.1.lastFlush = rl.lastFlush ∧
    (rl.Log env r w).2.1.filename = rl.filename ∧
    (rl.Log env r w).2.1.period = rl.period ∧
    index 0 (rl.Log env r w).2.1.buf
        { Proto := if r.TLS.isSome then "https" else "http", IP := env.readUserIP r,
          URI := r.RequestURI, UserAgent := r.Header.Get "User-Agent" }
      = wrapInt (index 0 rl.buf
          { Proto := if r.TLS.isSome then "https" else "http", IP := env.readUserIP r,
            URI := r.RequestURI, UserAgent := r.Header.Get "User-Agent" } + 1) ∧
    (-(2 ^ 63) ≤ index 0 rl.buf
          { Proto := if r.TLS.isSome then "https" else "http", IP := env.readUserIP r,
            URI := r.RequestURI, UserAgent := r.Header.Get "User-Agent" } ∧
      index 0 rl.buf
          { Proto := if r.TLS.isSome then "https" else "http", IP := env.readUserIP r,
            URI := r.RequestURI, UserAgent := r.Header.Get "User-Agent" } < 2 ^ 63 - 1 →
      index 0 (rl.Log env r w).2.1.buf
          { Proto := if r.TLS.isSome then "https" else "http", IP := env.readUserIP r,
            URI := r.RequestURI, UserAgent := r.Header.Get "User-Agent" }
        = index 0 rl.buf
            { Proto := if r.TLS.isSome then "https" else "http", IP := env.readUserIP r,
              URI := r.RequestURI, UserAgent := r.Header.Get "User-Agent" } + 1) ∧
    (∀ e : logEntry,
      e ≠ { Proto := if r.TLS.isSome then "https" else "http", IP := env.readUserIP r,
            URI := r.RequestURI, UserAgent := r.Header.Get "User-Agent" } →
      index 0 (rl.Log env r w).2.1.buf e = index 0 rl.buf e ∧
      hasKey (rl.Log env r w).2.1.buf e = hasKey rl.buf e) := by
  have hle : RequestLogger.entryOf env r
      = { Proto := if r.TLS.isSome then "https" else "http", IP := env.readUserIP r,
          URI := r.RequestURI, UserAgent := r.Header.Get "User-Agent" } := by
    unfold RequestLogger.entryOf
    cases r.TLS <;> simp
  rw [← hle]
  have hnot : ¬ timeSub (w.clock w.reads) rl.lastFlush > rl.period := not_lt.2 h
  have hLog : rl.Log env r w
      = (none, { rl with buf := (store rl.buf (RequestLogger.entryOf env r)
                    (wrapInt (index 0 rl.buf (RequestLogger.entryOf env r) + 1))) },
          { w with reads := w.reads + 1 }) := by
    unfold RequestLogger.Log timeSince timeNow
    simp only [hnot, if_false]
  rw [hLog]
  have hcount : index 0 (store rl.buf (RequestLogger.entryOf env r)
        (wrapInt (index 0 rl.buf (RequestLogger.entryOf env r) + 1)))
        (RequestLogger.entryOf env r)
      = wrapInt (index 0 rl.buf (RequestLogger.entryOf env r) + 1) := by
    simp [index_store]
  refine ⟨rfl, rfl, rfl, rfl, rfl, hcount, ?_, ?_⟩
  · intro hrange
    show index 0 (store rl.buf (RequestLogger.entryOf env r)
        (wrapInt (index 0 rl.buf (RequestLogger.entryOf env r) + 1)))
        (RequestLogger.entryOf env r) = _
    rw [hcount]
    exact wrapInt_of_inRange _ (by omega) (by omega)
  · intro e he
    simp [index_store, hasKey_store, Ne.symm he]

/-- C9, amended, at a logger that flushed a second ago: the request is only counted. -/
theorem Log_buffers_witness :
    (loggerExample.Log envExample requestExample worldExample).1 = none ∧
    (loggerExample.Log envExample requestExample worldExample).2.2.files = [] ∧
    index 0 (loggerExample.Log envExample requestExample worldExample).2.1.buf
      { Proto := "http", IP := "192.0.2.7", URI := "/London", UserAgent := "curl/8.0" } = 1 := by
  have h := Log_buffers envExample loggerExample requestExample worldExample (by decide)
  exact ⟨h.1, h.2.1, h.2.2.2.2.2.2.1 (by decide)⟩

/-- C10: `flush` is all-or-nothing on the logger.  Within the period it returns
nil and leaves the logger and the files alone.  Past it, when the file opens
and the write succeeds, it returns nil, the file grows by one line per buffered
entry (time stamp, hit count, entry string), the buffer is emptied and
`lastFlush` is the clock reading taken after the write; and when opening or
writing fails, it returns that error and the logger is as before. -/
theorem flush_all_or_nothing (env : Env) (rl : RequestLogger) (w : World) :
    (timeSub (w.clock w.reads) rl.lastFlush ≤ rl.period →
      (rl.flush env w).1 = none ∧ (rl.flush env w).2.1 = rl ∧
      (rl.flush env w).2.2.files = w.files) ∧
    (timeSub (w.clock w.reads) rl.lastFlush > rl.period → w.openErr = none →
      w.writeErr = none →
      (rl.flush env w).1 = none ∧
      (rl.flush env w).2.1
        = { rl with buf := [], lastFlush := w.clock (w.reads + 1 + rl.buf.length) } ∧
      index "" (rl.flush env w).2.2.files rl.filename
        = index "" w.files rl.filename
          ++ String.join ((List.enumFrom (w.reads + 1) rl.buf).map fun ikh =>
              logLine env (w.clock ikh.1) ikh.2.1 ikh.2.2) ∧
      (∀ name, name ≠ rl.filename →
        index "" (rl.flush env w).2.2.files name = index "" w.files name)) ∧
    (timeSub (w.clock w.reads) rl.lastFlush > rl.period →
      ∀ err, (w.openErr = some err ∨ (w.openErr = none ∧ ∃ n, w.writeErr = some (n, err))) →
      (rl.flush env w).1 = some err ∧ (rl.flush env w).2.1 = rl) := by
  refine ⟨?_, ?_, ?_⟩
  · intro h
    unfold RequestLogger.flush timeSince timeNow
    simp [h]
  · intro h hopen hwrite
    have hnot : ¬ timeSub (w.clock w.reads) rl.lastFlush ≤ rl.period := not_le.2 h
    unfold RequestLogger.flush timeSince timeNow
    simp only [hnot, if_false, flushOutput_eq, openFile, hopen, fileWrite, hwrite]
    refine ⟨by simp, by simp [Nat.add_assoc], ?_, ?_⟩
    · simp [index_store]
    · intro name hname
      simp [index_store, Ne.symm hname]
  · intro h err herr
    have hnot : ¬ timeSub (w.clock w.reads) rl.lastFlush ≤ rl.period := not_le.2 h
    unfold RequestLogger.flush timeSince timeNow
    rcases herr with hopen | ⟨hopen, n, hwrite⟩
    · simp [hnot, flushOutput_eq, openFile, hopen]
    · simp [hnot, flushOutput_eq, openFile, hopen, fileWrite, hwrite]

/-- C10 at three inputs: a logger within its period, a due logger on a working
disk, and a due logger on a full disk. -/
theorem flush_all_or_nothing_witness :
    (loggerExample.flush envExample worldExample).2.1 = loggerExample ∧
    (loggerDue.flush envExample worldExample).2.1
      = { loggerDue with buf := [], lastFlush := 1003 * Second } ∧
    index "" (loggerDue.flush envExample worldExample).2.2.files "access.log"
      = "1001000000000   3 http 192.0.2.7 /London curl/8.0\n"
        ++ "1002000000000   1 https 192.0.2.9 /Paris xh/0.1\n" ∧
    ((loggerDue.flush envExample worldDiskFull).1
        = some "write access.log: no space left on device" ∧
      (loggerDue.flush envExample worldDiskFull).2.1 = loggerDue) :=
  ⟨((flush_all_or_nothing envExample loggerExample worldExample).1 (by decide)).2.1,
   ((flush_all_or_nothing envExample loggerDue worldExample).2.1 (by decide) rfl rfl).2.1,
   by decide,
   (flush_all_or_nothing envExample loggerDue worldDiskFull).2.2 (by decide) _
     (Or.inr ⟨rfl, 10, rfl⟩)⟩

/-! ## The least-recently-used store -/

theorem hasKey_true_iff {κ α : Type} [DecidableEq κ] (m : List (κ × α)) (k : κ) :
    hasKey m k = true ↔ k ∈ m.map Prod.fst := by
  rw [← not_iff_not, Bool.not_eq_true, hasKey_false_iff]

theorem lastUseRev_le {κ α : Type} [DecidableEq κ] (l : List (Access κ α)) (k : κ) :
    lastUseRev l k ≤ l.length := by
  induction l with
  | nil => simp [lastUseRev]
  | cons a l ih =>
    unfold lastUseRev
    split
    · simp
    · exact Nat.le_succ_of_le ih

theorem lastUse_le {κ α : Type} [DecidableEq κ] (l : List (Access κ α)) (k : κ) :
    lastUse l k ≤ l.length := by
  unfold lastUse
  simpa using lastUseRev_le l.reverse k

theorem lastUse_snoc {κ α : Type} [DecidableEq κ] (l : List (Access κ α)) (a : Access κ α)
    (k : κ) : lastUse (l ++ [a]) k = if a.key = k then l.length + 1 else lastUse l k := by
  simp [lastUse, lastUseRev]

theorem ByLastUse_touch {κ α : Type} [DecidableEq κ] (l : List (Access κ α))
    (a : Access κ α) (items : List (κ × α)) (v : α) (h : ByLastUse l items) :
    ByLastUse (l ++ [a]) ((a.key, v) :: items.filter fun kv => kv.1 ≠ a.key) := by
  unfold ByLastUse at *
  rw [List.pairwise_cons]
  constructor
  · intro x hx
    have hne : x.1 ≠ a.key := by simpa using (List.mem_filter.1 hx).2
    rw [lastUse_snoc, lastUse_snoc, if_pos rfl, if_neg (Ne.symm hne)]
    exact Nat.lt_succ_of_le (lastUse_le l x.1)
  · refine (h.filter _).imp_of_mem ?_
    intro x y hx hy hlt
    have hx1 : x.1 ≠ a.key := by simpa using (List.mem_filter.1 hx).2
    have hy1 : y.1 ≠ a.key := by simpa using (List.mem_filter.1 hy).2
    rw [lastUse_snoc, lastUse_snoc, if_neg (Ne.symm hx1), if_neg (Ne.symm hy1)]
    exact hlt

theorem ByLastUse_other {κ α : Type} [DecidableEq κ] (l : List (Access κ α))
    (a : Access κ α) (items : List (κ × α)) (h : ByLastUse l items)
    (habs : hasKey items a.key = false) : ByLastUse (l ++ [a]) items := by
  unfold ByLastUse at *
  have hne : ∀ x ∈ items, x.1 ≠ a.key := by
    intro x hx heq
    exact (hasKey_false_iff items a.key).1 habs (heq ▸ List.mem_map_of_mem Prod.fst hx)
  refine h.imp_of_mem ?_
  intro x y hx hy hlt
  rw [lastUse_snoc, lastUse_snoc, if_neg (Ne.symm (hne x hx)), if_neg (Ne.symm (hne y hy))]
  exact hlt

theorem length_filter_ne_lt {κ α : Type} [DecidableEq κ] (items : List (κ × α)) (k : κ)
    (h : hasKey items k = true) :
    (items.filter fun kv => kv.1 ≠ k).length < items.length := by
  obtain ⟨x, hx, hk⟩ := List.mem_map.1 ((hasKey_true_iff items k).1 h)
  apply List.length_filter_lt_length_iff_exists.2
  exact ⟨x, hx, by simp [hk]⟩

theorem filter_ne_of_absent {κ α : Type} [DecidableEq κ] (items : List (κ × α)) (k : κ)
    (h : hasKey items k = false) : (items.filter fun kv => kv.1 ≠ k) = items := by
  rw [List.filter_eq_self]
  intro x hx
  have : x.1 ≠ k := fun heq =>
    (hasKey_false_iff items k).1 h (heq ▸ List.mem_map_of_mem Prod.fst hx)
  simpa using this

theorem Add_inv {κ α : Type} [DecidableEq κ] (l : List (Access κ α)) (c : Cache κ α)
    (key : κ) (value : α) (hord : ByLastUse l c.items) (hlen : c.items.length ≤ c.size) :
    ByLastUse (l ++ [Access.add key value]) (c.Add key value).1.items ∧
    (c.Add key value).1.items.length ≤ c.size ∧ (c.Add key value).1.size = c.size := by
  have htouch := ByLastUse_touch l (Access.add key value) c.items value hord
  simp only [Access.key] at htouch
  unfold Cache.Add
  cases hk : hasKey c.items key with
  | true =>
    simp only [if_true]
    refine ⟨htouch, ?_, trivial⟩
    have := length_filter_ne_lt c.items key hk
    simp only [List.length_cons]
    omega
  | false =>
    rw [filter_ne_of_absent c.items key hk] at htouch
    simp only [Bool.false_eq_true, if_false]
    split
    · refine ⟨?_, ?_, rfl⟩
      · exact List.Pairwise.sublist (List.dropLast_sublist _) htouch
      · simp only [List.length_dropLast, List.length_cons]
        omega
    · rename_i hfit
      refine ⟨htouch, ?_, rfl⟩
      simp only [List.length_cons] at hfit ⊢
      omega

theorem Get_inv {κ α : Type} [DecidableEq κ] (l : List (Access κ α)) (c : Cache κ α)
    (key : κ) (hord : ByLastUse l c.items) (hlen : c.items.length ≤ c.size) :
    ByLastUse (l ++ [Access.get key]) (c.Get key).2.items ∧
    (c.Get key).2.items.length ≤ c.size ∧ (c.Get key).2.size = c.size := by
  unfold Cache.Get
  cases hf : c.items.find? (fun kv => kv.1 = key) with
  | some kv =>
    have hkv : kv.1 = key := by simpa using List.find?_some hf
    have hmem : kv ∈ c.items := List.mem_of_find?_eq_some hf
    have hk : hasKey c.items key = true :=
      (hasKey_true_iff c.items key).2 (hkv ▸ List.mem_map_of_mem Prod.fst hmem)
    have htouch := ByLastUse_touch l (Access.get key : Access κ α) c.items kv.2 hord
    simp only [Access.key] at htouch
    have hpair : (key, kv.2) = kv := by rw [← hkv]
    rw [hpair] at htouch
    refine ⟨htouch, ?_, rfl⟩
    have := length_filter_ne_lt c.items key hk
    simp only [List.length_cons]
    omega
  | none =>
    have hk : hasKey c.items key = false := by
      rw [hasKey_false_iff]
      intro hmem
      obtain ⟨x, hx, hxk⟩ := List.mem_map.1 hmem
      have := List.find?_eq_none.1 hf x hx
      simp [hxk] at this
    exact ⟨ByLastUse_other l (Access.get key) c.items hord hk, hlen, rfl⟩

theorem run_inv {κ α : Type} [DecidableEq κ] (c0 : Cache κ α) (h0 : c0.items = [])
    (l : List (Access κ α)) :
    ByLastUse l (c0.run l).items ∧ (c0.run l).items.length ≤ c0.size ∧
    (c0.run l).size = c0.size := by
  induction l using List.reverseRecOn with
  | nil => simp [Cache.run, ByLastUse, h0]
  | append_singleton l a ih =>
    have hrun : c0.run (l ++ [a]) = (c0.run l).step a := by
      simp [Cache.run, List.foldl_append]
    rw [hrun]
    obtain ⟨hord, hlen, hsize⟩ := ih
    rw [← hsize] at hlen ⊢
    cases a with
    | add key value => exact Add_inv l (c0.run l) key value hord hlen
    | get key => exact Get_inv l (c0.run l) key hord hlen

/-- When the store is full, adding a key it does not hold evicts the entry at
the end of the list, whose key was used before every other key of the store. -/
theorem Add_full_evicts {κ α : Type} [DecidableEq κ] (l : List (Access κ α)) (c : Cache κ α)
    (key : κ) (value : α) (hord : ByLastUse l c.items) (hpos : 0 < c.size)
    (hfull : c.items.length = c.size) (habs : hasKey c.items key = false) :
    ∃ old : κ,
      hasKey c.items old = true ∧
      (∀ k, hasKey c.items k = true → k ≠ old → lastUse l old < lastUse l k) ∧
      (c.Add key value).2 = true ∧
      (∀ k, hasKey (c.Add key value).1.items k = true
        ↔ (k = key ∨ (hasKey c.items k = true ∧ k ≠ old))) ∧
      (c.Add key value).1.Len = c.size ∧
      ((c.Add key value).1.Get old).1 = none := by
  have hne : c.items ≠ [] := by
    intro h
    rw [h] at hfull
    simp at hfull
    omega
  have hsplit : c.items.dropLast ++ [c.items.getLast hne] = c.items :=
    List.dropLast_append_getLast hne
  have hord' : ByLastUse l (c.items.dropLast ++ [c.items.getLast hne]) := by
    rw [hsplit]
    exact hord
  unfold ByLastUse at hord'
  rw [List.pairwise_append] at hord'
  obtain ⟨-, -, hlast⟩ := hord'
  have hbefore : ∀ x ∈ c.items.dropLast,
      lastUse l (c.items.getLast hne).1 < lastUse l x.1 :=
    fun x hx => hlast x hx _ (List.mem_singleton_self _)
  have hmemLast : c.items.getLast hne ∈ c.items := List.getLast_mem hne
  have hcases : ∀ x ∈ c.items, x ∈ c.items.dropLast ∨ x = c.items.getLast hne := by
    intro x hx
    rw [← hsplit] at hx
    simpa using hx
  have hdrop : ∀ x ∈ c.items.dropLast, x.1 ≠ (c.items.getLast hne).1 := by
    intro x hx heq
    have := hbefore x hx
    rw [heq] at this
    exact Nat.lt_irrefl _ this
  have hold : hasKey c.items (c.items.getLast hne).1 = true :=
    (hasKey_true_iff _ _).2 (List.mem_map_of_mem Prod.fst hmemLast)
  have hkeyne : key ≠ (c.items.getLast hne).1 := by
    intro heq
    rw [heq, hold] at habs
    cases habs
  have hAdd : c.Add key value = ({ c with items := (key, value) :: c.items.dropLast }, true) := by
    unfold Cache.Add
    have hlen : ((key, value) :: c.items).length > c.size := by
      simp only [List.length_cons]
      omega
    simp only [habs, Bool.false_eq_true, if_false, hlen, if_true,
      List.dropLast_cons_of_ne_nil hne]
  refine ⟨(c.items.getLast hne).1, hold, ?_, ?_, ?_, ?_, ?_⟩
  · intro k hk hkne
    obtain ⟨x, hx, hxk⟩ := List.mem_map.1 ((hasKey_true_iff _ _).1 hk)
    rcases hcases x hx with hd | hl
    · rw [← hxk]
      exact hbefore x hd
    · exact absurd (by rw [← hxk, hl]) hkne
  · rw [hAdd]
  · intro k
    rw [hAdd]
    simp only [hasKey]
    constructor
    · intro h
      by_cases hkk : key = k
      · exact Or.inl hkk.symm
      · simp only [hkk, if_false] at h
        obtain ⟨x, hx, hxk⟩ := List.mem_map.1 ((hasKey_true_iff _ _).1 h)
        right
        constructor
        · exact (hasKey_true_iff _ _).2
            (hxk ▸ List.mem_map_of_mem Prod.fst (List.mem_of_mem_dropLast hx))
        · rw [← hxk]
          exact hdrop x hx
    · rintro (rfl | ⟨hk, hkne⟩)
      · simp
      · by_cases hkk : key = k
        · simp [hkk]
        · simp only [hkk, if_false]
          obtain ⟨x, hx, hxk⟩ := List.mem_map.1 ((hasKey_true_iff _ _).1 hk)
          rcases hcases x hx with hd | hl
          · exact (hasKey_true_iff _ _).2 (hxk ▸ List.mem_map_of_mem Prod.fst hd)
          · exact absurd (by rw [← hxk, hl]) hkne
  · rw [hAdd]
    simp only [Cache.Len, List.length_cons, List.length_dropLast]
    omega
  · rw [hAdd]
    unfold Cache.Get
    have hnone : ((key, value) :: c.items.dropLast).find?
        (fun kv => kv.1 = (c.items.getLast hne).1) = none := by
      rw [List.find?_eq_none]
      intro x hx
      rcases List.mem_cons.1 hx with rfl | hd
      · simpa using hkeyne
      · simpa using hdrop x hd
    simp only [hnone]

/-- C8: the cache `init` creates has capacity 12800.  A store created with a
capacity keeps it, never holds more entries than it after any sequence of
insertions and reads, and when it is full the insertion of a new key evicts
exactly one key, the one whose last use is the oldest among the keys held; the
next read of that key is a miss. -/
theorem lruCache_bounded (size : Int) (c0 : Cache String responseWithHeader)
    (accesses : List (Access String responseWithHeader))
    (hnew : lruNew String responseWithHeader size = Except.ok c0) :
    initLruCache = Except.ok { size := 12800, items := [] } ∧
    (c0.size : Int) = size ∧ c0.items = [] ∧
    (c0.run accesses).size = c0.size ∧
    (c0.run accesses).Len ≤ c0.size ∧
    ∀ (key : String) (value : responseWithHeader),
      (c0.run accesses).Len = c0.size → hasKey (c0.run accesses).items key = false →
      ∃ old : String,
        hasKey (c0.run accesses).items old = true ∧
        (∀ k, hasKey (c0.run accesses).items k = true → k ≠ old →
          lastUse accesses old < lastUse accesses k) ∧
        ((c0.run accesses).Add key value).2 = true ∧
        (∀ k, hasKey ((c0.run accesses).Add key value).1.items k = true
          ↔ (k = key ∨ (hasKey (c0.run accesses).items k = true ∧ k ≠ old))) ∧
        ((c0.run accesses).Add key value).1.Len = c0.size ∧
        (((c0.run accesses).Add key value).1.Get old).1 = none := by
  have hpos : 0 < size ∧ c0 = { size := size.toNat, items := [] } := by
    unfold lruNew at hnew
    split at hnew
    · cases hnew
    · rename_i h
      injection hnew with hc
      exact ⟨not_le.1 h, hc.symm⟩
  obtain ⟨hsz, hc0⟩ := hpos
  have hitems : c0.items = [] := by rw [hc0]
  have hsize : (c0.size : Int) = size := by
    rw [hc0]
    exact Int.toNat_of_nonneg (le_of_lt hsz)
  obtain ⟨hord, hlen, hfix⟩ := run_inv c0 hitems accesses
  refine ⟨rfl, hsize, hitems, hfix, hlen, ?_⟩
  intro key value hfull habs
  have hpos : 0 < (c0.run accesses).size := by
    rw [hfix]
    omega
  have h := Add_full_evicts accesses (c0.run accesses) key value hord hpos
    (by rw [hfix]; exact hfull) habs
  rw [hfix] at h
  exact h

/-- C8 at a store of capacity 2 after `/London`, `/Paris` and a read of
`/London`: adding `/Berlin` evicts a key, and the keys left are `/Berlin` and
`/London`. -/
theorem lruCache_bounded_witness :
    (∃ old : String,
      hasKey (cacheTwo.run accessesExample).items old = true ∧
      (∀ k, hasKey (cacheTwo.run accessesExample).items k = true → k ≠ old →
        lastUse accessesExample old < lastUse accessesExample k) ∧
      ((cacheTwo.run accessesExample).Add "/Berlin" responseExample).2 = true ∧
      (∀ k, hasKey ((cacheTwo.run accessesExample).Add "/Berlin" responseExample).1.items k = true
        ↔ (k = "/Berlin" ∨ (hasKey (cacheTwo.run accessesExample).items k = true ∧ k ≠ old))) ∧
      ((cacheTwo.run accessesExample).Add "/Berlin" responseExample).1.Len = cacheTwo.size ∧
      (((cacheTwo.run accessesExample).Add "/Berlin" responseExample).1.Get old).1 = none) ∧
    ((cacheTwo.run accessesExample).Add "/Berlin" responseExample).1.items.map Prod.fst
      = ["/Berlin", "/London"] :=
  ⟨(lruCache_bounded 2 cacheTwo accessesExample rfl).2.2.2.2.2 "/Berlin" responseExample
      (by decide) (by decide),
   by decide⟩

end WttrIn
